import Mathlib

set_option maxRecDepth 40000

/-!
A shallow embedding of `src/libuntar.js` (the tar Header Scanner
`tarGetEntries` and the Payload Extractor `tarGetEntryData`).

Modelling conventions:

* A byte buffer (`Uint8Array` view over an `ArrayBuffer`) is a `List Nat`
  whose elements are the byte values.
* JavaScript numbers are modelled as exact integers (`Int`), with
  `Option Int` where `NaN` can arise (`none` models `NaN`).  Every
  arithmetic value the scanner produces stays far below `2^53` (sizes come
  from a 12-character octal field, so `|size| < 8^11 < 2^33`, and offsets
  stay within `buffer length + 2^33`), so double rounding never occurs and
  the `| 0` truncation in the source equals truncated division `Int.tdiv`;
  the JavaScript `%` on numbers is truncated remainder `Int.tmod`.
* `TextDecoder().decode` is modelled as the identity on bytes: it maps the
  zero byte to `U+0000` and never maps a nonzero byte (or multi-byte
  sequence) to `U+0000`, so removing `\0` characters from the decoded text
  corresponds exactly to removing zero bytes, and the decoded text is empty
  iff every byte is zero.  Likewise for `TextDecoder('ascii')`
  (windows-1252): the bytes decoding to JavaScript whitespace are exactly
  {9, 10, 11, 12, 13, 32, 160}, and the bytes decoding to octal digits or
  signs are exactly the ASCII ones, so trimming and `parseInt` behave
  identically on bytes and on decoded text.
-/

namespace Libuntar

/-- Entry descriptor produced by the Header Scanner: the object literal
pushed by `tarGetEntries` in `libuntar.js`.  `size` is `none` when the
source stores `NaN` (a size field `parseInt` could not parse). -/
structure TarEntry where
  name : List Nat
  size : Option Int
  is_file : Bool
  offset : Int
deriving Repr, DecidableEq

/-- `Uint8Array.prototype.slice(start, stop)`: negative indices count from
the end of the buffer, both indices are clamped to `[0, length]`, and the
result is the (copied) range between them (empty when reversed). -/
def jsSlice (l : List Nat) (start stop : Int) : List Nat :=
  let len : Int := l.length
  let s : Int := if start < 0 then max (len + start) 0 else min start len
  let e : Int := if stop < 0 then max (len + stop) 0 else min stop len
  (l.drop s.toNat).take (e - s).toNat

/-- `_tarRead(view, offset, size)` = `view.slice(offset, offset + size)`. -/
def _tarRead (view : List Nat) (offset size : Int) : List Nat :=
  jsSlice view offset (offset + size)

/-- The bytes whose windows-1252 decoding is JavaScript whitespace
(`String.prototype.trim` removes them): TAB, LF, VT, FF, CR, SP, NBSP. -/
def isJsWhitespace (b : Nat) : Bool :=
  b == 9 || b == 10 || b == 11 || b == 12 || b == 13 || b == 32 || b == 160

/-- `String.prototype.trim`: drop whitespace from both ends. -/
def jsTrim (s : List Nat) : List Nat :=
  ((s.dropWhile isJsWhitespace).reverse.dropWhile isJsWhitespace).reverse

/-- ASCII octal digit, `'0'` to `'7'`. -/
def isOctalDigit (b : Nat) : Bool :=
  48 ≤ b && b ≤ 55

/-- `parseInt(s, 8)` on an already-trimmed string: an optional sign
followed by the longest run of octal digits; `NaN` (`none`) when that run
is empty, otherwise the signed value of the digits read in base 8
(trailing garbage after the digits is ignored). -/
def parseIntOct (s : List Nat) : Option Int :=
  let signed : Int × List Nat :=
    match s with
    | 45 :: r => (-1, r)
    | 43 :: r => (1, r)
    | r => (1, r)
  let digits := signed.2.takeWhile isOctalDigit
  if digits = [] then none
  else some (signed.1 * digits.foldl (fun a d => a * 8 + ((d : Int) - 48)) 0)

/-- The `entryName` computed for the header block at cursor `c`: the
100-byte name field, decoded, with every `\0` removed
(`.replace(/\0/g, '')` — all null bytes, not only trailing ones). -/
def readName (buf : List Nat) (c : Int) : List Nat :=
  (_tarRead buf (c + 0) 100).filter (· ≠ 0)

/-- The `entrySizeString` for the header block at cursor `c`: the 12-byte
size field with null bytes removed and whitespace trimmed. -/
def sizeFieldString (buf : List Nat) (c : Int) : List Nat :=
  jsTrim ((_tarRead buf (c + 124) 12).filter (· ≠ 0))

/-- The `entrySize` for the header block at cursor `c`
(`parseInt(entrySizeString, 8)`; `none` models `NaN`). -/
def parseSizeAt (buf : List Nat) (c : Int) : Option Int :=
  parseIntOct (sizeFieldString buf c)

/-- The `entryType` for the header block at cursor `c`:
`entryTypeBytes[0] - 48`.  When the one-byte slice is empty,
`entryTypeBytes[0]` is `undefined` and the subtraction yields `NaN`
(modelled `none`). -/
def typeAt (buf : List Nat) (c : Int) : Option Int :=
  match _tarRead buf (c + 156) 1 with
  | [] => none
  | b :: _ => some ((b : Int) - 48)

/-- The cursor update at the end of one loop iteration:
`offset += entrySize + 512`, then if `offset % 512 > 0` round to
`((offset / 512 | 0) + 1) * 512`.  JavaScript `%` and `/ ... | 0` on these
values are `Int.tmod` and `Int.tdiv`. -/
def advance (c size : Int) : Int :=
  let o := c + size + 512
  if Int.tmod o 512 > 0 then (Int.tdiv o 512 + 1) * 512 else o

/-- The `while` loop of `tarGetEntries`, made total with a fuel parameter
(`none` = fuel ran out before the loop finished).  One iteration: test
`offset + 512 < byteLength`; decode the name and stop on an empty one;
decode size and type; push a descriptor when the type is 0 or 5; advance
the cursor.  When `entrySize` is `NaN` the new cursor is `NaN` and the
next loop test is false, so the iteration returns the collected entries
directly. -/
def scanLoop (buf : List Nat) : Nat → Int → List TarEntry → Option (List TarEntry)
  | 0, _, _ => none
  | fuel + 1, c, es =>
    if c + 512 < (buf.length : Int) then
      let nm := readName buf c
      if nm = [] then some es
      else
        let sz := parseSizeAt buf c
        let ty := typeAt buf c
        let es' := if ty = some 0 ∨ ty = some 5 then
            es ++ [{ name := nm, size := sz, is_file := decide (ty = some 0), offset := c }]
          else es
        match sz with
        | none => some es'
        | some n => scanLoop buf fuel (advance c n) es'
    else some es

/-- `tarGetEntries(arrayBuffer)`: run the scanning loop from cursor 0 with
an empty entry list. -/
def tarGetEntries (buf : List Nat) (fuel : Nat) : Option (List TarEntry) :=
  scanLoop buf fuel 0 []

/-- `tarGetEntryData(entry, arrayBuffer)` =
`_tarRead(view, entry.offset + 512, entry.size)`.  When `entry.size` is
`NaN`, the slice end `offset + 512 + NaN` is `NaN`, which
`ToIntegerOrInfinity` converts to 0. -/
def tarGetEntryData (e : TarEntry) (buf : List Nat) : List Nat :=
  match e.size with
  | some n => _tarRead buf (e.offset + 512) n
  | none => jsSlice buf (e.offset + 512) 0

/-- The cursors at which the scanning loop actually decodes a size field
(the claims about "size fields encountered during scanning" quantify over
this list).  It follows the recursion of `scanLoop` exactly: a cursor is
recorded when the loop test passes and the name is nonempty. -/
def visited (buf : List Nat) : Nat → Int → List Int
  | 0, _ => []
  | fuel + 1, c =>
    if c + 512 < (buf.length : Int) then
      if readName buf c = [] then []
      else
        match parseSizeAt buf c with
        | none => [c]
        | some n => c :: visited buf fuel (advance c n)
    else []

/-- The size field at cursor `c` decodes to a non-negative integer. -/
def sizeNonnegAt (buf : List Nat) (c : Int) : Bool :=
  match parseSizeAt buf c with
  | some n => decide (0 ≤ n)
  | none => false

/-- Pad a size field to the full 12 bytes with null bytes. -/
def sz12 (ds : List Nat) : List Nat :=
  ds ++ List.replicate (12 - ds.length) 0

/-- A 512-byte header block with the given name field content (null-padded
to 100 bytes), 12-byte size field, and type-flag byte; every field the
scanner does not read is zero. -/
def mkHeader (name sizeField : List Nat) (ty : Nat) : List Nat :=
  name ++ List.replicate (100 - name.length) 0
    ++ List.replicate 24 0 ++ sizeField ++ List.replicate 20 0
    ++ [ty] ++ List.replicate 355 0

/-- The payload region size after padding to a 512-byte block boundary. -/
def padTo512 (n : Nat) : Nat :=
  ((n + 511) / 512) * 512

/-- A valid single-entry tar archive (the spec's §8 notion): one file
header block, the content, null padding of the payload to a 512-byte
boundary, and two all-zero 512-byte end-of-archive blocks. -/
def mkArchive (name sizeField content : List Nat) : List Nat :=
  mkHeader name sizeField 48 ++ content
    ++ List.replicate (padTo512 content.length - content.length) 0
    ++ List.replicate 1024 0

/-- Modelled from the spec: "decode as text, strip trailing null bytes" —
removes null bytes only from the end of a field.  Used only to state what
the specification predicts for a name field; the source instead removes
every null byte (`.replace(/\0/g, '')`). -/
def stripTrailingZeros (s : List Nat) : List Nat :=
  (s.reverse.dropWhile (· = 0)).reverse

/-- A 1024-byte buffer whose single header has name `"a"`, octal size
field `"-1000"` (value −512) and type `'0'`.  The cursor update is
`0 + (−512) + 512 = 0`, so the scanning loop never leaves cursor 0. -/
def c1buf : List Nat :=
  mkHeader [97] (sz12 [45, 49, 48, 48, 48]) 48 ++ List.replicate 512 0

/-- A 1536-byte buffer: a header with name `"a"`, non-numeric size field
`"abc"` and type `'0'`, followed by a well-formed header (name `"b"`,
size `"0"`, type `'0'`) at offset 512 and one all-zero block. -/
def c2buf : List Nat :=
  mkHeader [97] (sz12 [97, 98, 99]) 48
    ++ mkHeader [98] (sz12 [48]) 48 ++ List.replicate 512 0

/-- A 1536-byte buffer whose first header has octal size field `"-2000"`
(value −1024), driving the cursor to −512; the byte ranges that the
negative cursor wraps to (via negative `slice` indices) hold name `"b"`,
size `"1"` and type `'0'`. -/
def c3buf : List Nat :=
  mkHeader [97] (sz12 [45, 50, 48, 48, 48]) 48
    ++ List.replicate 512 0
    ++ [98] ++ List.replicate 123 0
    ++ [49] ++ List.replicate 31 0
    ++ [48] ++ List.replicate 355 0

/-- A buffer of exactly 512 bytes holding one well-formed file header
(name `"a"`, size `"0"`, type `'0'`). -/
def c4buf512 : List Nat :=
  mkHeader [97] (sz12 [48]) 48

/-- The same well-formed 512-byte header followed by one extra byte
(513 bytes in total). -/
def c4buf513 : List Nat :=
  mkHeader [97] (sz12 [48]) 48 ++ [0]

/-- A 1536-byte buffer holding one directory header (type `'5'`) whose
size field is `"3"`, followed by two all-zero blocks. -/
def c5buf : List Nat :=
  mkHeader [100] (sz12 [51]) 53 ++ List.replicate 1024 0

/-- A 1536-byte buffer whose header's name field starts with the bytes
`'a', 0, 'b'` — a null byte before a non-null byte. -/
def c6buf : List Nat :=
  mkHeader [97, 0, 98] (sz12 [48]) 48 ++ List.replicate 1024 0

/-- A 1536-byte buffer: a header with unrecognized type flag `'2'`
(symlink) and size `"0"`, then a well-formed file header at offset 512,
then an all-zero block. -/
def c8buf : List Nat :=
  mkHeader [97] (sz12 [48]) 50
    ++ mkHeader [98] (sz12 [48]) 48 ++ List.replicate 512 0

/-- A 1536-byte buffer with two well-formed file headers (sizes 0) and one
all-zero block. -/
def c10buf : List Nat :=
  mkHeader [97] (sz12 [48]) 48
    ++ mkHeader [98] (sz12 [48]) 48 ++ List.replicate 512 0

/-! Helper lemmas about `jsSlice`, `advance` and the scanning loop. -/

lemma jsSlice_natCast (l : List Nat) (s e : Nat) :
    jsSlice l (s : Int) (e : Int) = (l.drop s).take (e - s) := by
  simp only [jsSlice]
  rw [if_neg (by omega), if_neg (by omega)]
  rcases le_or_lt s l.length with hs | hs
  · have h1 : (min (s : Int) (l.length : Int)).toNat = s := by omega
    rcases le_or_lt e l.length with he | he
    · have h2 : (min (e : Int) (l.length : Int) - min (s : Int) (l.length : Int)).toNat
          = e - s := by omega
      rw [h1, h2]
    · have h2 : (min (e : Int) (l.length : Int) - min (s : Int) (l.length : Int)).toNat
          = l.length - s := by omega
      rw [h1, h2, List.take_of_length_le, List.take_of_length_le]
      · rw [List.length_drop]; omega
      · rw [List.length_drop]
  · have h1 : (min (s : Int) (l.length : Int)).toNat = l.length := by omega
    rw [h1, List.drop_length, List.drop_eq_nil_of_le (by omega), List.take_nil, List.take_nil]

lemma jsSlice_append (pre mid post : List Nat) :
    jsSlice (pre ++ mid ++ post) (pre.length : Int) ((pre.length + mid.length : Nat) : Int)
      = mid := by
  rw [jsSlice_natCast, Nat.add_sub_cancel_left, List.append_assoc, List.drop_left,
    List.take_left]

lemma jsSlice_region (buf pre mid post : List Nat) (a b : Int)
    (hbuf : buf = pre ++ mid ++ post)
    (ha : a = (pre.length : Int))
    (hb : b = ((pre.length + mid.length : Nat) : Int)) :
    jsSlice buf a b = mid := by
  subst hbuf ha hb
  exact jsSlice_append pre mid post

lemma jsSlice_same (l : List Nat) (x : Int) : jsSlice l x x = [] := by
  simp only [jsSlice]
  split_ifs <;> simp

lemma advance_nonneg_of_nonneg {c n : Int} (hc : 0 ≤ c) (hn : 0 ≤ n) :
    c + 512 ≤ advance c n ∧ (512 : Int) ∣ advance c n := by
  have ho : (0 : Int) ≤ c + n + 512 := by omega
  simp only [advance]
  rw [Int.tmod_eq_emod ho (by omega), Int.tdiv_eq_ediv ho (by omega)]
  split_ifs with h
  · constructor
    · omega
    · exact ⟨(c + n + 512) / 512 + 1, by ring⟩
  · constructor
    · omega
    · exact ⟨(c + n + 512) / 512, by omega⟩

lemma advance_zero_natCast (N : Nat) :
    advance 0 (N : Int) = ((512 + padTo512 N : Nat) : Int) := by
  have ho : (0 : Int) ≤ 0 + (N : Int) + 512 := by omega
  simp only [advance, padTo512]
  rw [Int.tmod_eq_emod ho (by omega), Int.tdiv_eq_ediv ho (by omega)]
  have h512 : ((512 : Nat) : Int) = 512 := by norm_num
  split_ifs with h
  · push_cast
    omega
  · push_cast
    omega

lemma scanLoop_zero (buf : List Nat) (c : Int) (es : List TarEntry) :
    scanLoop buf 0 c es = none := rfl

lemma scanLoop_low (buf : List Nat) (fuel : Nat) (c : Int) (es : List TarEntry)
    (h1 : ¬ c + 512 < (buf.length : Int)) :
    scanLoop buf (fuel + 1) c es = some es := by
  simp only [scanLoop, if_neg h1]

lemma scanLoop_break (buf : List Nat) (fuel : Nat) (c : Int) (es : List TarEntry)
    (h1 : c + 512 < (buf.length : Int)) (h2 : readName buf c = []) :
    scanLoop buf (fuel + 1) c es = some es := by
  simp only [scanLoop, if_pos h1, h2, if_pos]

lemma scanLoop_step (buf : List Nat) (fuel : Nat) (c : Int) (es : List TarEntry) (n : Int)
    (h1 : c + 512 < (buf.length : Int)) (h2 : readName buf c ≠ [])
    (h3 : parseSizeAt buf c = some n) :
    scanLoop buf (fuel + 1) c es
      = scanLoop buf fuel (advance c n)
          (if typeAt buf c = some 0 ∨ typeAt buf c = some 5 then
             es ++ [{ name := readName buf c, size := some n,
                      is_file := decide (typeAt buf c = some 0), offset := c }]
           else es) := by
  simp only [scanLoop, if_pos h1, if_neg h2, h3]

lemma scanLoop_nan (buf : List Nat) (fuel : Nat) (c : Int) (es : List TarEntry)
    (h1 : c + 512 < (buf.length : Int)) (h2 : readName buf c ≠ [])
    (h3 : parseSizeAt buf c = none) :
    scanLoop buf (fuel + 1) c es
      = some (if typeAt buf c = some 0 ∨ typeAt buf c = some 5 then
             es ++ [{ name := readName buf c, size := none,
                      is_file := decide (typeAt buf c = some 0), offset := c }]
           else es) := by
  simp only [scanLoop, if_pos h1, if_neg h2, h3]

lemma scanLoop_accum (buf : List Nat) (fuel : Nat) :
    ∀ (c : Int) (es : List TarEntry),
      scanLoop buf fuel c es = (scanLoop buf fuel c []).map (es ++ ·) := by
  induction fuel with
  | zero => intro c es; rfl
  | succ fuel ih =>
    intro c es
    by_cases h1 : c + 512 < (buf.length : Int)
    · by_cases h2 : readName buf c = []
      · rw [scanLoop_break _ _ _ _ h1 h2, scanLoop_break _ _ _ _ h1 h2]
        simp
      · cases h3 : parseSizeAt buf c with
        | none =>
          rw [scanLoop_nan _ _ _ _ h1 h2 h3, scanLoop_nan _ _ _ _ h1 h2 h3]
          split_ifs <;> simp
        | some n =>
          rw [scanLoop_step _ _ _ _ _ h1 h2 h3, scanLoop_step _ _ _ _ _ h1 h2 h3]
          rw [ih]
          conv_rhs => rw [ih]
          cases scanLoop buf fuel (advance c n) [] <;> split_ifs <;> simp
    · rw [scanLoop_low _ _ _ _ h1, scanLoop_low _ _ _ _ h1]
      simp

lemma scanLoop_names (buf : List Nat) (fuel : Nat) :
    ∀ (c : Int) (es out : List TarEntry),
      scanLoop buf fuel c es = some out →
      (∀ e ∈ es, e.name = readName buf e.offset) →
      ∀ e ∈ out, e.name = readName buf e.offset := by
  induction fuel with
  | zero => intro c es out h; rw [scanLoop_zero] at h; cases h
  | succ fuel ih =>
    intro c es out h hes
    by_cases h1 : c + 512 < (buf.length : Int)
    · by_cases h2 : readName buf c = []
      · rw [scanLoop_break _ _ _ _ h1 h2] at h
        injection h with h
        exact h ▸ hes
      · have hpush : ∀ e ∈ (if typeAt buf c = some 0 ∨ typeAt buf c = some 5 then
              es ++ [{ name := readName buf c, size := parseSizeAt buf c,
                       is_file := decide (typeAt buf c = some 0), offset := c }]
            else es), e.name = readName buf e.offset := by
          split_ifs with hty
          · intro e he
            rcases List.mem_append.mp he with he | he
            · exact hes e he
            · rcases List.mem_singleton.mp he with rfl
              rfl
          · exact hes
        cases h3 : parseSizeAt buf c with
        | none =>
          rw [scanLoop_nan _ _ _ _ h1 h2 h3] at h
          injection h with h
          rw [h3] at hpush
          exact h ▸ hpush
        | some n =>
          rw [scanLoop_step _ _ _ _ _ h1 h2 h3] at h
          rw [h3] at hpush
          exact ih (advance c n) _ out h hpush
    · rw [scanLoop_low _ _ _ _ h1] at h
      injection h with h
      exact h ▸ hes

lemma scanLoop_aligned (buf : List Nat) (fuel : Nat) :
    ∀ (c : Int) (out : List TarEntry),
      0 ≤ c → (512 : Int) ∣ c →
      scanLoop buf fuel c [] = some out →
      (∀ x ∈ visited buf fuel c, sizeNonnegAt buf x = true) →
      (∀ e ∈ out, 0 ≤ e.offset ∧ (512 : Int) ∣ e.offset ∧
        e.offset + 512 < (buf.length : Int) ∧ c ≤ e.offset) ∧
      out.Pairwise (fun a b => a.offset + 512 ≤ b.offset) := by
  induction fuel with
  | zero => intro c out _ _ h _; rw [scanLoop_zero] at h; cases h
  | succ fuel ih =>
    intro c out hc hdvd h hvis
    by_cases h1 : c + 512 < (buf.length : Int)
    · by_cases h2 : readName buf c = []
      · rw [scanLoop_break _ _ _ _ h1 h2] at h
        injection h with h
        subst h
        exact ⟨by simp, by simp⟩
      · have hcvis : c ∈ visited buf (fuel + 1) c := by
          cases hp : parseSizeAt buf c <;>
            simp [visited, if_pos h1, if_neg h2, hp]
        have hcn := hvis c hcvis
        cases h3 : parseSizeAt buf c with
        | none =>
          rw [sizeNonnegAt, h3] at hcn
          cases hcn
        | some n =>
          have hn : (0 : Int) ≤ n := by
            rw [sizeNonnegAt, h3] at hcn
            exact of_decide_eq_true hcn
          obtain ⟨hadv, hdvd'⟩ := advance_nonneg_of_nonneg hc hn
          rw [scanLoop_step _ _ _ _ _ h1 h2 h3] at h
          rw [scanLoop_accum] at h
          cases hrec : scanLoop buf fuel (advance c n) [] with
          | none => rw [hrec] at h; cases h
          | some suf =>
            rw [hrec] at h
            injection h with h
            have hvis' : ∀ x ∈ visited buf fuel (advance c n),
                sizeNonnegAt buf x = true := by
              intro x hx
              apply hvis
              simp only [visited, if_pos h1, if_neg h2, h3]
              exact List.mem_cons_of_mem _ hx
            obtain ⟨hmem, hpw⟩ := ih (advance c n) suf (by omega) hdvd' hrec hvis'
            subst h
            constructor
            · intro e he
              rcases List.mem_append.mp he with he | he
              · split_ifs at he with hty
                · rcases List.mem_singleton.mp (by simpa using he) with rfl
                  exact ⟨hc, hdvd, h1, le_refl c⟩
                · cases he
              · obtain ⟨h0, hd, hl, hge⟩ := hmem e he
                exact ⟨h0, hd, hl, by omega⟩
            · split_ifs with hty
              · simp only [List.nil_append, List.singleton_append, List.pairwise_cons]
                constructor
                · intro b hb
                  have h4 := (hmem b hb).2.2.2
                  show c + 512 ≤ b.offset
                  omega
                · exact hpw
              · simpa using hpw
    · rw [scanLoop_low _ _ _ _ h1] at h
      injection h with h
      subst h
      exact ⟨by simp, by simp⟩

/-! Claim theorems. -/

/-- C1: the Header Scanner does NOT terminate on every input buffer.  On
`c1buf` (a single header whose octal size field is `"-1000"`, i.e. −512)
the cursor update `0 + (−512) + 512 = 0` leaves the cursor at 0 with the
loop test still true, so the loop never finishes: the fuel-indexed model
of the loop returns `none` (fuel exhausted) for EVERY fuel bound, in
particular for bounds far beyond the buffer length. -/
theorem c1_scanner_nonterminating :
    ∀ (fuel : Nat), tarGetEntries c1buf fuel = none := by
  have key : ∀ (fuel : Nat) (es : List TarEntry), scanLoop c1buf fuel 0 es = none := by
    intro fuel
    induction fuel with
    | zero => intro es; rfl
    | succ fuel ih =>
      intro es
      have h1 : (0 : Int) + 512 < (c1buf.length : Int) := by decide
      have h2 : readName c1buf 0 ≠ [] := by decide
      have h3 : parseSizeAt c1buf 0 = some (-512) := by decide
      have h4 : advance 0 (-512) = 0 := by decide
      rw [scanLoop_step _ _ _ _ _ h1 h2 h3, h4]
      exact ih _
  intro fuel
  exact key fuel []

/-- C2 (amended): when the 12-byte size field at the current cursor does
not parse as a base-8 integer, `parseInt` yields `NaN`, not 0: the
descriptor emitted for that header (if its type is 0 or 5) carries the
`NaN` size, and the cursor becomes `NaN`, so the scan returns right after
that block instead of advancing by 512 as it would for size 0.  No
exception is thrown: the loop returns the entries collected so far. -/
theorem c2_nan_size_ends_scan (buf : List Nat) (fuel : Nat) (c : Int)
    (es : List TarEntry) (h1 : c + 512 < (buf.length : Int))
    (h2 : readName buf c ≠ []) (h3 : parseSizeAt buf c = none) :
    scanLoop buf (fuel + 1) c es
      = some (if typeAt buf c = some 0 ∨ typeAt buf c = some 5 then
             es ++ [{ name := readName buf c, size := none,
                      is_file := decide (typeAt buf c = some 0), offset := c }]
           else es) :=
  scanLoop_nan buf fuel c es h1 h2 h3

theorem c2_nan_size_ends_scan_witness :
    ((0 : Int) + 512 < (c2buf.length : Int)) ∧ readName c2buf 0 ≠ []
    ∧ parseSizeAt c2buf 0 = none
    ∧ scanLoop c2buf (0 + 1) 0 []
        = some (if typeAt c2buf 0 = some 0 ∨ typeAt c2buf 0 = some 5 then
             [] ++ [{ name := readName c2buf 0, size := none,
                      is_file := decide (typeAt c2buf 0 = some 0), offset := 0 }]
           else []) :=
  ⟨by decide, by decide, by decide,
    c2_nan_size_ends_scan c2buf 0 0 [] (by decide) (by decide) (by decide)⟩

/-- C2 counterexample: on `c2buf` (size field `"abc"`, followed by a
well-formed header at offset 512) the single emitted descriptor has size
`NaN` (`none`), not the claimed fallback 0, and the scan stops instead of
continuing to the header at offset 512. -/
theorem c2_counterexample :
    tarGetEntries c2buf 5
      = some [{ name := [97], size := none, is_file := true, offset := 0 }]
    ∧ (none : Option Int) ≠ some 0 :=
  ⟨by decide, by decide⟩

/-- C3 (amended): provided every size field encountered during the scan
decodes to a non-negative integer, every returned descriptor's offset is
non-negative, divisible by 512, and strictly less than the buffer length.
(Negative size decodes can drive the cursor — and hence recorded offsets —
to negative, unaligned values.) -/
theorem c3_offsets_aligned (buf : List Nat) (fuel : Nat) (es : List TarEntry)
    (h : tarGetEntries buf fuel = some es)
    (hvis : ∀ x ∈ visited buf fuel 0, sizeNonnegAt buf x = true) :
    ∀ e ∈ es, 0 ≤ e.offset ∧ (512 : Int) ∣ e.offset
      ∧ e.offset < (buf.length : Int) := by
  have hmain := scanLoop_aligned buf fuel 0 es (le_refl 0) (dvd_zero 512) h hvis
  intro e he
  obtain ⟨h0, hd, hl, _⟩ := hmain.1 e he
  exact ⟨h0, hd, by omega⟩

theorem c3_offsets_aligned_witness :
    0 ≤ (512 : Int) ∧ (512 : Int) ∣ 512 ∧ (512 : Int) < (c10buf.length : Int) :=
  c3_offsets_aligned c10buf 3
    [{ name := [97], size := some 0, is_file := true, offset := 0 },
     { name := [98], size := some 0, is_file := true, offset := 512 }]
    (by decide) (by decide)
    { name := [98], size := some 0, is_file := true, offset := 512 } (by decide)

/-- C3 counterexample: on `c3buf` (first size field `"-2000"` = −1024)
the scan returns a descriptor with offset −512 — negative, hence not a
non-negative multiple of 512. -/
theorem c3_counterexample :
    tarGetEntries c3buf 5
      = some [{ name := [97], size := some (-1024), is_file := true, offset := 0 },
              { name := [98], size := some 1, is_file := true, offset := -512 }]
    ∧ ¬ (0 : Int) ≤ -512 :=
  ⟨by decide, by decide⟩

/-- C4 (amended): the loop decodes a header at cursor `c` exactly when
`c + 512 < length(buffer)` (strict): every buffer of AT MOST 512 bytes —
including exactly 512 — yields an empty sequence, and the same well-formed
single-header buffer with one extra byte (513 bytes) yields exactly one
descriptor. -/
theorem c4_loop_bound :
    (∀ (buf : List Nat) (fuel : Nat), buf.length ≤ 512 → 1 ≤ fuel →
      tarGetEntries buf fuel = some [])
    ∧ tarGetEntries c4buf513 2
        = some [{ name := [97], size := some 0, is_file := true, offset := 0 }] := by
  constructor
  · intro buf fuel hlen hfuel
    obtain ⟨k, rfl⟩ := Nat.exists_eq_add_of_le hfuel
    rw [tarGetEntries, Nat.add_comm]
    exact scanLoop_low buf k 0 [] (by omega)
  · decide

theorem c4_loop_bound_witness :
    c4buf512.length ≤ 512 ∧ 1 ≤ 1 ∧ tarGetEntries c4buf512 1 = some [] :=
  ⟨by decide, le_refl 1, c4_loop_bound.1 c4buf512 1 (by decide) (le_refl 1)⟩

/-- C4 counterexample: `c4buf512` is a buffer of exactly 512 bytes holding
one well-formed header (non-empty name, octal size field, type `'0'`), yet
the scan returns no descriptor, because the loop condition is the strict
`cursor + 512 < length`, not `≤`. -/
theorem c4_counterexample :
    c4buf512.length = 512 ∧ tarGetEntries c4buf512 3 = some []
    ∧ ([] : List TarEntry)
        ≠ [{ name := [97], size := some 0, is_file := true, offset := 0 }] :=
  ⟨by decide, by decide, by decide⟩

/-- C5 (amended): a descriptor whose decoded size is 0 — in particular a
directory descriptor whose size field decodes to 0 — extracts to a
zero-length byte sequence.  Directory descriptors are not otherwise forced
to size 0: they carry whatever the size field decodes to. -/
theorem c5_size_zero_extracts_empty (e : TarEntry) (buf : List Nat)
    (h : e.size = some 0) : tarGetEntryData e buf = [] := by
  simp only [tarGetEntryData, h, _tarRead, add_zero]
  exact jsSlice_same buf (e.offset + 512)

theorem c5_size_zero_extracts_empty_witness :
    ({ name := [100], size := some 0, is_file := false, offset := 0 } : TarEntry).size
      = some 0
    ∧ tarGetEntryData
        { name := [100], size := some 0, is_file := false, offset := 0 } c5buf = [] :=
  ⟨rfl, c5_size_zero_extracts_empty _ c5buf rfl⟩

/-- C5 counterexample: `c5buf` holds a directory header (type `'5'`) whose
size field is `"3"`; the returned directory descriptor has size 3, not 0,
and `tarGetEntryData` returns the 3 bytes after the header block, not a
zero-length sequence. -/
theorem c5_counterexample :
    tarGetEntries c5buf 3
      = some [{ name := [100], size := some 3, is_file := false, offset := 0 }]
    ∧ tarGetEntryData
        { name := [100], size := some 3, is_file := false, offset := 0 } c5buf = [0, 0, 0]
    ∧ (some (3 : Int) : Option Int) ≠ some 0 :=
  ⟨by decide, by decide, by decide⟩

/-- C6 (amended): every returned descriptor's name is the 100-byte name
field at its offset with EVERY null byte removed (`replace(/\0/g, '')`),
not only the trailing ones: null bytes occurring before a non-null byte
are removed as well. -/
theorem c6_names_all_nulls_stripped (buf : List Nat) (fuel : Nat)
    (es : List TarEntry) (h : tarGetEntries buf fuel = some es) :
    ∀ e ∈ es, e.name = readName buf e.offset :=
  scanLoop_names buf fuel 0 [] es h (by intro e he; cases he)

theorem c6_names_all_nulls_stripped_witness :
    tarGetEntries c6buf 2
      = some [{ name := [97, 98], size := some 0, is_file := true, offset := 0 }]
    ∧ ({ name := [97, 98], size := some 0, is_file := true, offset := 0 } : TarEntry).name
        = readName c6buf 0 :=
  ⟨by decide,
    c6_names_all_nulls_stripped c6buf 2
      [{ name := [97, 98], size := some 0, is_file := true, offset := 0 }]
      (by decide)
      { name := [97, 98], size := some 0, is_file := true, offset := 0 } (by decide)⟩

/-- C6 counterexample: on `c6buf`, whose name field starts with bytes
`'a', 0, 'b'`, stripping only trailing null bytes would give
`[97, 0, 98]`, but the scan returns the name `[97, 98]`: the interior
null byte is NOT preserved. -/
theorem c6_counterexample :
    tarGetEntries c6buf 2
      = some [{ name := [97, 98], size := some 0, is_file := true, offset := 0 }]
    ∧ stripTrailingZeros (jsSlice c6buf 0 100) = [97, 0, 98]
    ∧ ([97, 98] : List Nat) ≠ [97, 0, 98] :=
  ⟨by decide, by decide, by decide⟩

/-- C8: a header whose type flag maps to a value other than 0 or 5 emits
no descriptor but advances the cursor by exactly the same `advance`
function as a recognized type (first and second conjuncts differ only in
the emitted entry), and the entries collected so far never influence the
descriptors produced from any cursor onward (third conjunct), so the
descriptors of subsequent header blocks are unchanged. -/
theorem c8_unknown_type_skipped :
    (∀ (buf : List Nat) (fuel : Nat) (c : Int) (es : List TarEntry) (n : Int),
      c + 512 < (buf.length : Int) → readName buf c ≠ [] →
      parseSizeAt buf c = some n →
      ¬ (typeAt buf c = some 0 ∨ typeAt buf c = some 5) →
      scanLoop buf (fuel + 1) c es = scanLoop buf fuel (advance c n) es)
    ∧ (∀ (buf : List Nat) (fuel : Nat) (c : Int) (es : List TarEntry) (n : Int),
      c + 512 < (buf.length : Int) → readName buf c ≠ [] →
      parseSizeAt buf c = some n →
      (typeAt buf c = some 0 ∨ typeAt buf c = some 5) →
      scanLoop buf (fuel + 1) c es
        = scanLoop buf fuel (advance c n)
            (es ++ [{ name := readName buf c, size := some n,
                      is_file := decide (typeAt buf c = some 0), offset := c }]))
    ∧ (∀ (buf : List Nat) (fuel : Nat) (c : Int) (es : List TarEntry),
      scanLoop buf fuel c es = (scanLoop buf fuel c []).map (es ++ ·)) := by
  refine ⟨?_, ?_, scanLoop_accum⟩
  · intro buf fuel c es n h1 h2 h3 hty
    rw [scanLoop_step _ _ _ _ _ h1 h2 h3, if_neg hty]
  · intro buf fuel c es n h1 h2 h3 hty
    rw [scanLoop_step _ _ _ _ _ h1 h2 h3, if_pos hty]

theorem c8_unknown_type_skipped_witness :
    ((0 : Int) + 512 < (c8buf.length : Int)) ∧ readName c8buf 0 ≠ []
    ∧ parseSizeAt c8buf 0 = some 0
    ∧ ¬ (typeAt c8buf 0 = some 0 ∨ typeAt c8buf 0 = some 5)
    ∧ scanLoop c8buf (2 + 1) 0 [] = scanLoop c8buf 2 (advance 0 0) [] :=
  ⟨by decide, by decide, by decide, by decide,
    c8_unknown_type_skipped.1 c8buf 2 0 [] 0 (by decide) (by decide) (by decide)
      (by decide)⟩

/-- C9: `tarGetEntryData` never fails for a non-negative integer offset
and size: the result length is the requested size clamped to the bytes
available after the header block (possibly 0). -/
theorem c9_extract_clamped (e : TarEntry) (buf : List Nat) (n : Int)
    (hsz : e.size = some n) (hn : 0 ≤ n) (ho : 0 ≤ e.offset) :
    (tarGetEntryData e buf).length
      = min n.toNat (buf.length - (e.offset.toNat + 512)) := by
  simp only [tarGetEntryData, hsz, _tarRead]
  have h1 : e.offset + 512 = ((e.offset.toNat + 512 : Nat) : Int) := by omega
  have h2 : e.offset + 512 + n = ((e.offset.toNat + 512 + n.toNat : Nat) : Int) := by
    omega
  rw [h2, h1, jsSlice_natCast, List.length_take, List.length_drop]
  omega

theorem c9_extract_clamped_witness :
    ({ name := [100], size := some 3, is_file := false, offset := 0 } : TarEntry).size
      = some 3
    ∧ (0 : Int) ≤ 3 ∧ (0 : Int) ≤ 0
    ∧ (tarGetEntryData
        { name := [100], size := some 3, is_file := false, offset := 0 } c5buf).length
      = min (Int.toNat 3) (c5buf.length - (Int.toNat 0 + 512)) :=
  ⟨rfl, by decide, by decide,
    c9_extract_clamped
      { name := [100], size := some 3, is_file := false, offset := 0 } c5buf 3
      rfl (by decide) (by decide)⟩

/-- C10: when every size field encountered during the scan decodes to a
non-negative integer, the offsets of the returned descriptors are strictly
increasing, each successive one exceeding its predecessor by at least
512. -/
theorem c10_offsets_increasing (buf : List Nat) (fuel : Nat) (es : List TarEntry)
    (h : tarGetEntries buf fuel = some es)
    (hvis : ∀ x ∈ visited buf fuel 0, sizeNonnegAt buf x = true) :
    es.Pairwise (fun a b => a.offset + 512 ≤ b.offset) :=
  (scanLoop_aligned buf fuel 0 es (le_refl 0) (dvd_zero 512) h hvis).2

/-- C7: (1) whenever `entry.offset + 512 + entry.size ≤ length(buffer)`
(offset and size non-negative integers), `tarGetEntryData` returns exactly
the byte range `[offset + 512, offset + 512 + size)` of the buffer; and
(2) for every valid single-entry archive holding a file with content `C`
(any non-empty name of at most 100 non-null bytes, any 12-byte size field
decoding to `len(C)`, type `'0'`, payload padded to a block boundary, two
zero end blocks), `tarGetEntries` returns exactly one descriptor — that
name, size `len(C)`, kind File, offset 0 — and `tarGetEntryData` on it
returns exactly `C`. -/
theorem c7_extract_exact :
    (∀ (e : TarEntry) (buf : List Nat) (n : Int),
      e.size = some n → 0 ≤ e.offset → 0 ≤ n →
      e.offset + 512 + n ≤ (buf.length : Int) →
      tarGetEntryData e buf = (buf.drop (e.offset + 512).toNat).take n.toNat)
    ∧ (∀ (name sizeField content : List Nat) (fuel : Nat),
      name ≠ [] → name.length ≤ 100 → (∀ b ∈ name, b ≠ 0) →
      sizeField.length = 12 →
      parseIntOct (jsTrim (sizeField.filter (· ≠ 0))) = some (content.length : Int) →
      2 ≤ fuel →
      tarGetEntries (mkArchive name sizeField content) fuel
        = some [{ name := name, size := some (content.length : Int),
                  is_file := true, offset := 0 }]
      ∧ tarGetEntryData
          { name := name, size := some (content.length : Int),
            is_file := true, offset := 0 }
          (mkArchive name sizeField content) = content) := by
  constructor
  · intro e buf n hsz ho hn hbound
    simp only [tarGetEntryData, hsz, _tarRead]
    have h2 : e.offset + 512 + n = ((e.offset.toNat + 512 + n.toNat : Nat) : Int) := by
      omega
    have h1 : e.offset + 512 = ((e.offset.toNat + 512 : Nat) : Int) := by omega
    rw [h2, h1, jsSlice_natCast]
    have ht : e.offset.toNat + 512 + n.toNat - (e.offset.toNat + 512) = n.toNat := by
      omega
    rw [ht, Int.toNat_natCast]
  · intro name sizeField content fuel hne h100 hnz h12 hparse hfuel
    obtain ⟨k, rfl⟩ := Nat.exists_eq_add_of_le hfuel
    have hpadge : content.length ≤ padTo512 content.length := by
      simp only [padTo512]
      omega
    have hlenH : (mkHeader name sizeField 48).length = 512 := by
      simp only [mkHeader, List.length_append, List.length_replicate, List.length_cons,
        List.length_nil]
      omega
    have hlenA : (mkArchive name sizeField content).length
        = 1536 + padTo512 content.length := by
      simp only [mkArchive, List.length_append, hlenH, List.length_replicate]
      omega
    have hreadname : readName (mkArchive name sizeField content) 0 = name := by
      have hfield : jsSlice (mkArchive name sizeField content) (0 + 0) (0 + 0 + 100)
          = name ++ List.replicate (100 - name.length) 0 := by
        apply jsSlice_region _ []
          (name ++ List.replicate (100 - name.length) 0)
          (List.replicate 24 0 ++ sizeField ++ List.replicate 20 0 ++ [48]
            ++ List.replicate 355 0 ++ content
            ++ List.replicate (padTo512 content.length - content.length) 0
            ++ List.replicate 1024 0)
        · simp [mkArchive, mkHeader, List.append_assoc]
        · simp
        · simp only [List.length_nil, List.length_append, List.length_replicate]
          omega
      rw [readName, _tarRead, hfield, List.filter_append]
      have hfn : name.filter (· ≠ 0) = name :=
        List.filter_eq_self.mpr (fun b hb => decide_eq_true (hnz b hb))
      rw [hfn, List.filter_replicate]
      simp
    have hsize : parseSizeAt (mkArchive name sizeField content) 0
        = some (content.length : Int) := by
      have hfield : jsSlice (mkArchive name sizeField content) (0 + 124) (0 + 124 + 12)
          = sizeField := by
        apply jsSlice_region _
          (name ++ List.replicate (100 - name.length) 0 ++ List.replicate 24 0)
          sizeField
          (List.replicate 20 0 ++ [48] ++ List.replicate 355 0 ++ content
            ++ List.replicate (padTo512 content.length - content.length) 0
            ++ List.replicate 1024 0)
        · simp [mkArchive, mkHeader, List.append_assoc]
        · simp only [List.length_append, List.length_replicate]
          omega
        · simp only [List.length_append, List.length_replicate]
          omega
      rw [parseSizeAt, sizeFieldString, _tarRead, hfield]
      exact hparse
    have htype : typeAt (mkArchive name sizeField content) 0 = some 0 := by
      have hfield : jsSlice (mkArchive name sizeField content) (0 + 156) (0 + 156 + 1)
          = [48] := by
        apply jsSlice_region _
          (name ++ List.replicate (100 - name.length) 0 ++ List.replicate 24 0
            ++ sizeField ++ List.replicate 20 0)
          [48]
          (List.replicate 355 0 ++ content
            ++ List.replicate (padTo512 content.length - content.length) 0
            ++ List.replicate 1024 0)
        · simp [mkArchive, mkHeader, List.append_assoc]
        · simp only [List.length_append, List.length_replicate]
          omega
        · simp only [List.length_append, List.length_replicate, List.length_cons,
            List.length_nil]
          omega
      rw [typeAt, _tarRead, hfield]
      simp
    have hsplit : (List.replicate 1024 (0 : Nat))
        = List.replicate 100 0 ++ List.replicate 924 0 := by
      rw [← List.replicate_add]
    have hreadname2 : readName (mkArchive name sizeField content)
        ((512 + padTo512 content.length : Nat) : Int) = [] := by
      have hfield : jsSlice (mkArchive name sizeField content)
          (((512 + padTo512 content.length : Nat) : Int) + 0)
          (((512 + padTo512 content.length : Nat) : Int) + 0 + 100)
          = List.replicate 100 0 := by
        apply jsSlice_region _
          (mkHeader name sizeField 48 ++ content
            ++ List.replicate (padTo512 content.length - content.length) 0)
          (List.replicate 100 0) (List.replicate 924 0)
        · simp [mkArchive, hsplit, List.append_assoc]
        · simp only [List.length_append, hlenH, List.length_replicate]
          omega
        · simp only [List.length_append, hlenH, List.length_replicate]
          omega
      rw [readName, _tarRead, hfield, List.filter_replicate]
      simp
    have cond1 : (0 : Int) + 512 < ((mkArchive name sizeField content).length : Int) := by
      rw [hlenA]
      omega
    have cond2 : ((512 + padTo512 content.length : Nat) : Int) + 512
        < ((mkArchive name sizeField content).length : Int) := by
      rw [hlenA]
      omega
    have hname' : readName (mkArchive name sizeField content) 0 ≠ [] := by
      rw [hreadname]
      exact hne
    constructor
    · rw [tarGetEntries]
      have hf : 2 + k = (1 + k) + 1 := by omega
      rw [hf, scanLoop_step _ (1 + k) 0 [] (content.length : Int) cond1 hname' hsize,
        advance_zero_natCast]
      have hf2 : 1 + k = k + 1 := by omega
      rw [if_pos (Or.inl htype), hf2, scanLoop_break _ k _ _ cond2 hreadname2, hreadname]
      simp [htype]
    · simp only [tarGetEntryData]
      have hfield : jsSlice (mkArchive name sizeField content)
          ((0 : Int) + 512) ((0 : Int) + 512 + (content.length : Int)) = content := by
        apply jsSlice_region _ (mkHeader name sizeField 48) content
          (List.replicate (padTo512 content.length - content.length) 0
            ++ List.replicate 1024 0)
        · simp [mkArchive, List.append_assoc]
        · rw [hlenH]
          omega
        · simp only [List.length_append, hlenH]
          omega
      rw [_tarRead, hfield]

theorem c7_extract_exact_witness :
    tarGetEntries (mkArchive [97] (sz12 [48]) []) 2
      = some [{ name := [97], size := some 0, is_file := true, offset := 0 }]
    ∧ tarGetEntryData { name := [97], size := some 0, is_file := true, offset := 0 }
        (mkArchive [97] (sz12 [48]) []) = []
    ∧ tarGetEntryData { name := [100], size := some 3, is_file := false, offset := 0 }
        c5buf
      = (c5buf.drop ((0 : Int) + 512).toNat).take (3 : Int).toNat :=
  have hmain := c7_extract_exact.2 [97] (sz12 [48]) [] 2 (by decide) (by decide)
    (by decide) (by decide) (by decide) (le_refl 2)
  ⟨hmain.1, hmain.2,
    c7_extract_exact.1 { name := [100], size := some 3, is_file := false, offset := 0 }
      c5buf 3 rfl (by decide) (by decide) (by decide)⟩

theorem c10_offsets_increasing_witness :
    List.Pairwise (fun (a b : TarEntry) => a.offset + 512 ≤ b.offset)
      [{ name := [97], size := some 0, is_file := true, offset := 0 },
       { name := [98], size := some 0, is_file := true, offset := 512 }] :=
  c10_offsets_increasing c10buf 3
    [{ name := [97], size := some 0, is_file := true, offset := 0 },
     { name := [98], size := some 0, is_file := true, offset := 512 }]
    (by decide) (by decide)

end Libuntar
